import Mathlib

/-!
Verification of the topic-lifecycle and run-orchestration core of the
kids-educational-video automation repository.

The Python modules are shallowly embedded:
* `db_manager.py`  — an in-memory `DBState` (topics table with an
  autoincrement counter, upload history, logs) with the SQL statements
  translated to pure list operations;
* `topic_manager.py` — the external text-generation API is an oracle
  `TopicOracle` mapping (request index, requested count) to a parsed
  response (`none` models an API exception or an unparseable reply);
* `youtube_publisher.py` — the per-attempt upload outcome is an oracle
  `Nat → Except Unit (Option String)` (`.error` models a raised
  exception, `.ok none` a falsy video id);
* `content_generator.py` — the lesson API call is an `ApiOutcome`;
  lesson dictionaries are association lists, as in the Python source;
* `main.py` — the orchestrator composes the above; a collaborator
  exception is an `Except.error` value and every `try/except` of the
  source becomes the corresponding `match`.
-/

namespace PostKoko

/-- Status column of the `topics` table (`'unused' | 'used'`). -/
inductive TStatus where
  | unused
  | used
deriving DecidableEq

/-- One row of the `topics` table of `db_manager.py`. -/
structure Topic where
  id : Nat
  category : String
  main_topic : String
  subtopic : String
  status : TStatus
  used_at : Option Nat
deriving DecidableEq

/-- A validated topic candidate (dict with keys category/main_topic/subtopic). -/
structure Candidate where
  category : String
  main_topic : String
  subtopic : String
deriving DecidableEq

/-- One row of the `upload_history` table. -/
structure UploadRecord where
  topic_id : Nat
  video_title : String
  youtube_video_id : String
deriving DecidableEq

/-- One row of the `logs` table. -/
structure LogEntry where
  level : String
  message : String
deriving DecidableEq

/-- The persistent store of `db_manager.py`: the three tables plus the
autoincrement counter for topic ids (SQLite hands out increasing ids and a
failed duplicate insert does not consume one). -/
structure DBState where
  topics : List Topic
  next_id : Nat
  uploads : List UploadRecord
  logs : List LogEntry
deriving DecidableEq

/-- The (category, main_topic, subtopic) key of a topic row, the column
triple covered by the `UNIQUE` constraint. -/
def keyOf (t : Topic) : String × String × String :=
  (t.category, t.main_topic, t.subtopic)

/-- Does some stored row already carry the candidate's key triple?
This is the `UNIQUE(category, main_topic, subtopic)` constraint check that
makes the `INSERT` of `add_topics` raise `IntegrityError`. -/
def tripleMem (c : Candidate) (ts : List Topic) : Bool :=
  ts.any fun t =>
    t.category == c.category && t.main_topic == c.main_topic && t.subtopic == c.subtopic

/-- The freshly inserted row for a candidate (`status = 'unused'`,
`used_at = NULL`). -/
def candidate_row (c : Candidate) (id : Nat) : Topic :=
  ⟨id, c.category, c.main_topic, c.subtopic, TStatus.unused, none⟩

/-- The loop body of `DBManager.add_topics`: one `INSERT` attempt. A
candidate whose key triple is already present raises `IntegrityError` and
is skipped; otherwise the row is appended, the autoincrement counter
advances and `added_count` is incremented. -/
def add_step (p : DBState × Nat) (c : Candidate) : DBState × Nat :=
  if tripleMem c p.1.topics then p
  else
    ({ p.1 with
        topics := p.1.topics ++ [candidate_row c p.1.next_id],
        next_id := p.1.next_id + 1 },
      p.2 + 1)

/-- `DBManager.add_topics`: insert each candidate in order, skipping
duplicates, returning the new state together with `added_count`. -/
def add_topics (db : DBState) (cands : List Candidate) : DBState × Nat :=
  cands.foldl add_step (db, 0)

/-- One step of `SELECT ... WHERE status = 'unused' ORDER BY id LIMIT 1`:
keep the row with the smaller id. -/
def nextStep (acc : Option Topic) (t : Topic) : Option Topic :=
  match acc with
  | none => some t
  | some u => if t.id < u.id then some t else some u

/-- The unused rows of the store, in table order. -/
def unusedTopics (db : DBState) : List Topic :=
  db.topics.filter fun t => t.status == TStatus.unused

/-- `DBManager.get_next_topic`: the unused row with the least id, or `none`. -/
def get_next_topic (db : DBState) : Option Topic :=
  (unusedTopics db).foldl nextStep none

/-- `DBManager.mark_topic_used`: set status `'used'` and the used
timestamp on every row with the given id. -/
def mark_topic_used (db : DBState) (topic_id now : Nat) : DBState :=
  { db with
      topics := db.topics.map fun t =>
        if t.id == topic_id then { t with status := TStatus.used, used_at := some now }
        else t }

/-- `DBManager.get_unused_count`. -/
def get_unused_count (db : DBState) : Nat :=
  (unusedTopics db).length

/-- `DBManager.get_total_count`. -/
def get_total_count (db : DBState) : Nat :=
  db.topics.length

/-- `DBManager.reset_all_topics`: `UPDATE topics SET status = 'unused',
used_at = NULL`. -/
def reset_all_topics (db : DBState) : DBState :=
  { db with
      topics := db.topics.map fun t => { t with status := TStatus.unused, used_at := none } }

/-- `DBManager.delete_all_topics`. -/
def delete_all_topics (db : DBState) : DBState :=
  { db with topics := [] }

/-- `DBManager.log_upload`: append one `upload_history` row. -/
def log_upload (db : DBState) (topic_id : Nat) (title vid : String) : DBState :=
  { db with uploads := db.uploads ++ [⟨topic_id, title, vid⟩] }

/-- `DBManager.add_log`: append one `logs` row. -/
def add_log (db : DBState) (level message : String) : DBState :=
  { db with logs := db.logs ++ [⟨level, message⟩] }

/-! ### Topic supplier (`topic_manager.py`) -/

/-- A raw candidate object as parsed from the generation API reply; any of
the three keys may be missing. -/
structure RawTopic where
  category : Option String
  main_topic : Option String
  subtopic : Option String
deriving DecidableEq

/-- The validation step of `TopicManager.generate_topics`: a raw object is
kept exactly when all of category/main_topic/subtopic are present. -/
def validateRaw (r : RawTopic) : Option Candidate :=
  match r.category, r.main_topic, r.subtopic with
  | some c, some m, some s => some ⟨c, m, s⟩
  | _, _, _ => none

/-- The external topic-generation API: request index and requested count
map to the parsed topics list of the reply. `none` models a raised
exception or a reply in which no list of topics could be found — both are
turned into an empty result by `generate_topics`. -/
abbrev TopicOracle := Nat → Nat → Option (List RawTopic)

/-- `TopicManager.generate_topics`, applied to the (already abstracted)
API response: on failure return `[]`, otherwise keep the valid objects. -/
def generate_topics (resp : Option (List RawTopic)) : List Candidate :=
  match resp with
  | none => []
  | some raws => raws.filterMap validateRaw

/-- The loop body of `TopicManager.generate_topics_batch`: `fuel` is the
number of remaining loop iterations (`batches - i`), `i` the request
index, `acc` the accumulated candidates. Besides the accumulated list the
model returns the number of generation requests issued, the observable
interaction with the external collaborator. -/
def batchLoop (oracle : TopicOracle) (total bs : Nat) :
    Nat → Nat → List Candidate → List Candidate × Nat
  | 0, _, acc => (acc, 0)
  | fuel + 1, i, acc =>
    let cnt := min bs (total - acc.length)
    let acc2 := acc ++ generate_topics (oracle i cnt)
    if total ≤ acc2.length then (acc2, 1)
    else
      let p := batchLoop oracle total bs fuel (i + 1) acc2
      (p.1, p.2 + 1)

/-- `TopicManager.generate_topics_batch`: `batches = ceil(total/bs)`
iterations, early break once `total` candidates are accumulated, final
truncation `all_topics[:total_count]`. Second component: requests issued. -/
def generate_topics_batch (oracle : TopicOracle) (total bs : Nat) :
    List Candidate × Nat :=
  let batches := (total + bs - 1) / bs
  let p := batchLoop oracle total bs batches 0 []
  (p.1.take total, p.2)

/-! ### Publisher (`youtube_publisher.py`) -/

/-- A single upload attempt is a failure for the retry loop when it raises
(`.error`) or returns a falsy video id (`.ok none`). -/
def uploadFailed : Except Unit (Option String) → Bool
  | .ok (some _) => false
  | _ => true

/-- The `for attempt in range(max_retries)` loop of
`YouTubePublisher.upload_video_with_retry`: `attempt` is the current
attempt index, `fuel` the number of attempts left. A raised exception and
a falsy id are both retried; a truthy id is returned at once. -/
def retry_upload_go (upload : Nat → Except Unit (Option String)) :
    Nat → Nat → Option String
  | _, 0 => none
  | attempt, fuel + 1 =>
    match upload attempt with
    | .ok (some vid) => some vid
    | _ => retry_upload_go upload (attempt + 1) fuel

/-- `YouTubePublisher.upload_video_with_retry`. -/
def upload_video_with_retry (upload : Nat → Except Unit (Option String))
    (max_retries : Nat) : Option String :=
  retry_upload_go upload 0 max_retries

/-- Video metadata as produced by
`YouTubePublisher.generate_video_metadata` (title/description/tags with
the YouTube truncation limits applied). -/
structure VideoMetadata where
  title : String
  description : String
  tags : List String
deriving DecidableEq

/-- `YouTubePublisher.generate_video_metadata`. -/
def generate_video_metadata (t : Topic) : VideoMetadata :=
  let title := t.main_topic ++ ": " ++ t.subtopic ++ " | Kids Learning #Shorts"
  let description :=
    "Learn about " ++ t.subtopic ++ " in this short educational video for kids!\n\n" ++
    "🎓 Category: " ++ t.category ++ "\n" ++
    "📚 Topic: " ++ t.main_topic ++ "\n\n" ++
    "Perfect for young learners to understand important concepts in a fun and engaging way.\n\n" ++
    "#Shorts #KidsEducation #Learning #Educational #Kids #Children\n"
  let tags :=
    ["kids education", "learning for kids", "educational video",
     t.category.toLower, t.main_topic.toLower, "shorts", "youtube shorts",
     "kids learning", "children education"]
  ⟨title.take 100, description.take 5000, tags.take 15⟩

/-! ### Content generator (`content_generator.py`) -/

/-- A leaf of the static `fallback_content` table: the four slides. -/
structure SlideSet where
  slide1 : String
  slide2 : String
  slide3 : String
  slide4 : String
deriving DecidableEq

/-- The static `ContentGenerator.fallback_content` table, as the lookup
`category → main_topic → subtopic → slides` that the three nested `in`
checks of `generate_lesson` perform. -/
def fallback_content (category main_topic subtopic : String) : Option SlideSet :=
  match category, main_topic, subtopic with
  | "English Basics", "Alphabet", "Learning Letter A" =>
    some ⟨"Learning Letter A",
      "The letter A is the first letter of the alphabet. It makes the sound \x27ah\x27 like in apple.",
      "Apple\nAnt\nAirplane",
      "Can you find things that start with A?"⟩
  | "English Basics", "Alphabet", "Learning Letter B" =>
    some ⟨"Learning Letter B",
      "The letter B is the second letter. It makes the sound \x27buh\x27 like in ball.",
      "Ball\nBee\nBanana",
      "What words start with B?"⟩
  | "Good Manners", "Politeness", "Saying Thank You" =>
    some ⟨"Saying Thank You",
      "Thank you means we are grateful. We say it when someone helps us.",
      "When someone gives you a gift\nWhen someone opens the door\nWhen someone shares food",
      "Can you say thank you today?"⟩
  | "Good Manners", "Politeness", "Saying Please" =>
    some ⟨"Saying Please",
      "Please is a magic word. We use it when we ask for something.",
      "Please pass the water\nPlease help me\nPlease share your toy",
      "Remember to say please!"⟩
  | "Math Basics", "Numbers", "Counting to 10" =>
    some ⟨"Counting to 10",
      "Numbers help us count things. Let\x27s learn to count from 1 to 10.",
      "1, 2, 3, 4, 5\n6, 7, 8, 9, 10",
      "Can you count to 10?"⟩
  | "Math Basics", "Numbers", "Number One" =>
    some ⟨"Number One",
      "One is the first number. It means a single thing.",
      "One sun\nOne moon\nOne star",
      "Find one thing in your room"⟩
  | "Colors & Shapes", "Colors", "Learning Red" =>
    some ⟨"Learning Red",
      "Red is a bright color. We see it in many things around us.",
      "Red apple\nRed flower\nRed car",
      "Find something red!"⟩
  | "Colors & Shapes", "Colors", "Learning Blue" =>
    some ⟨"Learning Blue",
      "Blue is a cool color. It reminds us of the sky and ocean.",
      "Blue sky\nBlue water\nBlue bird",
      "What blue things do you see?"⟩
  | "Colors & Shapes", "Shapes", "Learning Circle" =>
    some ⟨"Learning Circle",
      "A circle is round. It has no corners or edges.",
      "The sun is round\nA ball is round\nA plate is round",
      "Can you draw a circle?"⟩
  | "Colors & Shapes", "Shapes", "Learning Square" =>
    some ⟨"Learning Square",
      "A square has four equal sides. It has four corners.",
      "A window is square\nA box is square\nA tile is square",
      "Find a square shape!"⟩
  | "Daily Etiquette", "Greetings", "Saying Hello" =>
    some ⟨"Saying Hello",
      "Hello is a friendly greeting. We say it when we meet someone.",
      "Hello in the morning\nHello to a friend\nHello to a teacher",
      "Say hello to someone today!"⟩
  | _, _, _ => none

/-- Outcome of the lesson-generation API call of
`ContentGenerator.generate_lesson`, after JSON extraction:
* `raised` — the chat-completions call raised;
* `parseFail` — `json.loads` raised `JSONDecodeError` (re-raised into the
  outer handler);
* `notDict` — the parsed value is not a dict, so `.get` raises an
  `AttributeError` caught by the outer handler;
* `parsed s1 s2 s3 s4` — a dict, each slide key possibly absent. -/
inductive ApiOutcome where
  | raised
  | parseFail
  | notDict
  | parsed (s1 s2 s3 s4 : Option String)
deriving DecidableEq

/-- The lesson dictionary built by the static-table branch of
`generate_lesson`. -/
def lesson_of_slides (c : SlideSet) : List (String × String) :=
  [("slide1", c.slide1), ("slide2", c.slide2), ("slide3", c.slide3),
   ("slide4", c.slide4),
   ("full_text", c.slide1 ++ ". " ++ c.slide2 ++ " " ++ c.slide3 ++ " " ++ c.slide4)]

/-- The templated fallback lesson built by the outer `except` branch of
`generate_lesson`. -/
def simple_fallback (t : Candidate) : List (String × String) :=
  [("slide1", "Learning " ++ t.subtopic),
   ("slide2", "Let\x27s learn about " ++ t.subtopic ++ ". It\x27s an important concept."),
   ("slide3", "Example 1\nExample 2\nExample 3"),
   ("slide4", "Can you think about " ++ t.subtopic ++ "?"),
   ("full_text",
    "Learning " ++ t.subtopic ++ ". Let\x27s learn about " ++ t.subtopic ++
    ". It\x27s an important concept. Example 1, Example 2, Example 3. Can you think about " ++
    t.subtopic ++ "?")]

/-- `ContentGenerator.generate_lesson`: static table first; then the API
path with `lesson_data.get(key, "")` defaults; every API failure mode
falls through to the templated fallback. The function is total — the
Python original catches every exception of the API path. -/
def generate_lesson (t : Candidate) (api : ApiOutcome) : List (String × String) :=
  match fallback_content t.category t.main_topic t.subtopic with
  | some c => lesson_of_slides c
  | none =>
    match api with
    | .parsed s1 s2 s3 s4 =>
      let g1 := s1.getD ""
      let g2 := s2.getD ""
      let g3 := s3.getD ""
      let g4 := s4.getD ""
      [("slide1", g1), ("slide2", g2), ("slide3", g3), ("slide4", g4),
       ("full_text", g1 ++ ". " ++ g2 ++ " " ++ g3 ++ " " ++ g4)]
    | _ => simple_fallback t

/-! ### Orchestrator (`main.py`) -/

/-- The external collaborators as seen by `KidsEduAutomation`. Every
operation that can raise is an `Except Unit` value; `.error ()` is a
raised exception. The upload collaborator is indexed by attempt. -/
structure Env where
  topicOracle : TopicOracle
  genLesson : Topic → Except Unit (List (String × String))
  createVideo : List (String × String) → Topic → String → Except Unit String
  getDuration : String → Except Unit Nat
  authenticate : Except Unit Bool
  upload : Nat → Except Unit (Option String)

/-- `KidsEduAutomation._generate_and_store_topics` (topic batch size 200,
per-request batch size 50). Returns the success flag, the new store and
the number of generation requests issued. Nothing inside the Python `try`
can raise in the model (the supplier catches its own API failures and the
store is pure), so the `except` arm has no counterpart. -/
def generate_and_store_topics (env : Env) (db : DBState) : Bool × DBState × Nat :=
  let p := generate_topics_batch env.topicOracle 200 50
  if p.1.isEmpty then (false, db, p.2)
  else
    let q := add_topics db p.1
    let db2 := add_log q.1 "INFO"
      ("Generated and stored " ++ toString q.2 ++ " new topics")
    (true, db2, p.2)

/-- `KidsEduAutomation.ensure_topics_available` with
`min_topics_threshold = 10`. Second component: generation requests issued
to the external supplier (0 when the supplier is not invoked). -/
def ensure_topics_available (env : Env) (db : DBState) : DBState × Nat :=
  let unused := get_unused_count db
  let total := get_total_count db
  if unused = 0 then
    if total > 0 then (reset_all_topics db, 0)
    else
      let r := generate_and_store_topics env db
      (r.2.1, r.2.2)
  else if unused < 10 then
    let r := generate_and_store_topics env db
    (r.2.1, r.2.2)
  else (db, 0)

/-- Steps 3–8 of `KidsEduAutomation.create_and_upload_video`, for the
selected topic. Each `match` arm mirrors one `try/except` boundary of the
source; log rows record the failure as the source's `db.add_log` calls do
(the interpolated exception text is elided). The `authenticate` call is
not wrapped in an inner handler, so a raised exception there reaches the
outer `except`, whose log row is `"Workflow error"`. The cleanup step
only touches the filesystem, never the store, and its failures are
swallowed, so it has no observable effect here. -/
def workflow_after_selection (env : Env) (db : DBState) (topic : Topic) (now : Nat) :
    Bool × DBState :=
  match env.genLesson topic with
  | .error _ =>
    (false, add_log db "ERROR" ("Lesson generation failed for topic " ++ toString topic.id))
  | .ok lesson =>
    let fname := "video_" ++ toString topic.id ++ "_" ++ toString now ++ ".mp4"
    match env.createVideo lesson topic fname with
    | .error _ =>
      (false, add_log db "ERROR" ("Video creation failed for topic " ++ toString topic.id))
    | .ok path =>
      match env.getDuration path with
      | .error _ =>
        (false, add_log db "ERROR" ("Video creation failed for topic " ++ toString topic.id))
      | .ok _dur =>
        match env.authenticate with
        | .error _ => (false, add_log db "ERROR" "Workflow error")
        | .ok false => (false, add_log db "ERROR" "YouTube authentication failed")
        | .ok true =>
          let metadata := generate_video_metadata topic
          match upload_video_with_retry env.upload 5 with
          | none =>
            (false, add_log db "ERROR" ("YouTube upload failed for topic " ++ toString topic.id))
          | some vid =>
            let db2 := mark_topic_used db topic.id now
            let db3 := log_upload db2 topic.id metadata.title vid
            let db4 := add_log db3 "INFO"
              ("Successfully uploaded video " ++ vid ++ " for topic " ++ toString topic.id)
            (true, db4)

/-- `KidsEduAutomation.create_and_upload_video`: ensure availability,
select the next topic (absence is a failure with no log row written to
the store), then run the staged workflow. `now` stands for the wall clock
read by the filename template and the used timestamp. -/
def create_and_upload_video (env : Env) (db0 : DBState) (now : Nat) : Bool × DBState :=
  let db1 := (ensure_topics_available env db0).1
  match get_next_topic db1 with
  | none => (false, db1)
  | some topic => workflow_after_selection env db1 topic now

/-- `KidsEduAutomation.run_once`: runs the workflow once and returns its
boolean outcome. -/
def run_once (env : Env) (db : DBState) (now : Nat) : Bool × DBState :=
  create_and_upload_video env db now

/-- The process exit code of `main()` in mode `"once"`: `main` calls
`automation.run_once()` but discards the returned boolean and falls off
the end without `sys.exit`, so the interpreter exits with code 0. -/
def main_once_exit (env : Env) (db : DBState) (now : Nat) : Nat :=
  let _ := run_once env db now
  0

/-! ### Operation words over the store, for store-invariant statements -/

/-- One mutating operation of `DBManager`, used to state invariants that
hold after every sequence of store operations. -/
inductive DBOp where
  | addTopics (cands : List Candidate)
  | markUsed (id now : Nat)
  | resetAll
  | deleteAll
  | logUpload (id : Nat) (title vid : String)
  | addLog (level msg : String)

/-- Apply one store operation. -/
def applyOp (db : DBState) : DBOp → DBState
  | .addTopics cands => (add_topics db cands).1
  | .markUsed id now => mark_topic_used db id now
  | .resetAll => reset_all_topics db
  | .deleteAll => delete_all_topics db
  | .logUpload id title vid => log_upload db id title vid
  | .addLog level msg => add_log db level msg

/-- Apply a sequence of store operations. -/
def applyOps (db : DBState) (ops : List DBOp) : DBState :=
  ops.foldl applyOp db

/-- The `UNIQUE(category, main_topic, subtopic)` invariant over the
stored rows. -/
def TripleUnique (ts : List Topic) : Prop :=
  ts.Pairwise fun a b => keyOf a ≠ keyOf b

/-! ### Concrete fixtures -/

/-- A concrete unused topic row with id `i`. -/
def sampleTopic (i : Nat) : Topic :=
  ⟨i, "Math Basics", "Counting", "Lesson " ++ toString i, TStatus.unused, none⟩

/-- A concrete used topic row with id `i` and a set used timestamp. -/
def usedTopic (i : Nat) : Topic :=
  ⟨i, "Math Basics", "Counting", "Lesson " ++ toString i, TStatus.used, some 5⟩

/-- Store with five unused topics of ids 1..5. -/
def fiveDB : DBState :=
  ⟨[sampleTopic 1, sampleTopic 2, sampleTopic 3, sampleTopic 4, sampleTopic 5], 6, [], []⟩

/-- Store with five used topics of ids 1..5 (exhausted backlog). -/
def fiveUsedDB : DBState :=
  ⟨[usedTopic 1, usedTopic 2, usedTopic 3, usedTopic 4, usedTopic 5], 6, [], []⟩

/-- Store with three unused topics. -/
def threeUnusedDB : DBState :=
  ⟨[sampleTopic 1, sampleTopic 2, sampleTopic 3], 4, [], []⟩

/-- Store with twelve unused topics. -/
def twelveUnusedDB : DBState :=
  ⟨[sampleTopic 1, sampleTopic 2, sampleTopic 3, sampleTopic 4, sampleTopic 5,
    sampleTopic 6, sampleTopic 7, sampleTopic 8, sampleTopic 9, sampleTopic 10,
    sampleTopic 11, sampleTopic 12], 13, [], []⟩

/-- The fresh, empty store. -/
def dbEmpty : DBState := ⟨[], 1, [], []⟩

/-- A supplier backend that always answers with an empty topics list. -/
def emptyListOracle : TopicOracle := fun _ _ => some []

/-- Environment in which topic generation yields nothing and every later
stage fails. -/
def envNoTopics : Env :=
  ⟨emptyListOracle, fun _ => Except.ok [], fun _ _ _ => Except.error (),
   fun _ => Except.error (), Except.ok false, fun _ => Except.ok none⟩

/-- Environment that reaches the authentication stage and fails there. -/
def envAuthFalse : Env :=
  ⟨emptyListOracle, fun _ => Except.ok [], fun _ _ _ => Except.ok "out.mp4",
   fun _ => Except.ok 42, Except.ok false, fun _ => Except.ok none⟩

/-- Upload collaborator that raises on the first attempt and then
succeeds. -/
def uploadFailOnce : Nat → Except Unit (Option String) :=
  fun i => if i = 0 then Except.error () else Except.ok (some "vid123")

/-- Upload collaborator that always returns a falsy id. -/
def uploadAlwaysFail : Nat → Except Unit (Option String) :=
  fun _ => Except.ok none

/-- A candidate list with an internal duplicate. -/
def candsW : List Candidate :=
  [⟨"Good Manners", "Politeness", "Saying Please"⟩,
   ⟨"Good Manners", "Politeness", "Saying Please"⟩,
   ⟨"Math Basics", "Counting", "Numbers 1 to 10"⟩]

/-- A supplier backend returning one complete and one incomplete raw
candidate on every request. -/
def oracleW : TopicOracle :=
  fun _ _ => some [⟨some "Good Manners", some "Politeness", some "Saying Please"⟩,
                   ⟨none, some "Politeness", some "Saying Hello"⟩]

/-! ### Basic store lemmas -/

@[simp] lemma add_log_topics (db : DBState) (l m : String) :
    (add_log db l m).topics = db.topics := rfl

@[simp] lemma add_log_uploads (db : DBState) (l m : String) :
    (add_log db l m).uploads = db.uploads := rfl

@[simp] lemma log_upload_topics (db : DBState) (i : Nat) (t v : String) :
    (log_upload db i t v).topics = db.topics := rfl

@[simp] lemma log_upload_uploads (db : DBState) (i : Nat) (t v : String) :
    (log_upload db i t v).uploads = db.uploads ++ [⟨i, t, v⟩] := rfl

@[simp] lemma mark_topic_used_uploads (db : DBState) (i now : Nat) :
    (mark_topic_used db i now).uploads = db.uploads := rfl

@[simp] lemma reset_all_topics_uploads (db : DBState) :
    (reset_all_topics db).uploads = db.uploads := rfl

lemma mem_unusedTopics (db : DBState) (t : Topic) :
    t ∈ unusedTopics db ↔ t ∈ db.topics ∧ t.status = TStatus.unused := by
  simp [unusedTopics, List.mem_filter]

/-! ### The minimum-id selection of `get_next_topic` -/

lemma foldl_nextStep_some (l : List Topic) :
    ∀ u : Topic, ∃ v, l.foldl nextStep (some u) = some v ∧ (v = u ∨ v ∈ l) ∧
      v.id ≤ u.id ∧ ∀ t ∈ l, v.id ≤ t.id := by
  induction l with
  | nil => intro u; exact ⟨u, rfl, Or.inl rfl, le_refl _, by simp⟩
  | cons t l ih =>
    intro u
    by_cases h : t.id < u.id
    · obtain ⟨v, hv, hmem, hle, hall⟩ := ih t
      refine ⟨v, ?_, ?_, ?_, ?_⟩
      · simpa [nextStep, h] using hv
      · rcases hmem with rfl | hm
        · exact Or.inr (List.mem_cons_self _ _)
        · exact Or.inr (List.mem_cons_of_mem _ hm)
      · exact le_trans hle (le_of_lt h)
      · intro s hs
        rcases List.mem_cons.mp hs with rfl | hs'
        · exact hle
        · exact hall s hs'
    · obtain ⟨v, hv, hmem, hle, hall⟩ := ih u
      refine ⟨v, ?_, ?_, hle, ?_⟩
      · simpa [nextStep, h] using hv
      · rcases hmem with rfl | hm
        · exact Or.inl rfl
        · exact Or.inr (List.mem_cons_of_mem _ hm)
      · intro s hs
        rcases List.mem_cons.mp hs with rfl | hs'
        · exact le_trans hle (Nat.le_of_not_lt h)
        · exact hall s hs'

lemma foldl_nextStep_none_iff (l : List Topic) :
    l.foldl nextStep none = none ↔ l = [] := by
  cases l with
  | nil => simp
  | cons t l =>
    obtain ⟨v, hv, -, -, -⟩ := foldl_nextStep_some l t
    simp only [List.foldl_cons]
    constructor
    · intro h
      rw [show nextStep none t = some t from rfl] at h
      rw [hv] at h
      exact absurd h (by simp)
    · intro h; exact absurd h (by simp)

/-- Full specification of `get_next_topic`: `none` exactly when no
unused row exists; otherwise an unused stored row of minimal id. -/
lemma get_next_topic_spec (db : DBState) :
    (get_next_topic db = none ↔ ∀ t ∈ db.topics, t.status ≠ TStatus.unused) ∧
    ∀ t, get_next_topic db = some t →
      t ∈ db.topics ∧ t.status = TStatus.unused ∧
      ∀ u ∈ db.topics, u.status = TStatus.unused → t.id ≤ u.id := by
  constructor
  · rw [get_next_topic, foldl_nextStep_none_iff]
    simp only [unusedTopics, List.filter_eq_nil_iff]
    constructor
    · intro h t ht hst
      exact absurd (by simp [hst]) (h t ht)
    · intro h t ht
      simp only [beq_iff_eq]
      exact h t ht
  · intro t ht
    rw [get_next_topic] at ht
    cases hl : unusedTopics db with
    | nil => rw [hl] at ht; exact absurd ht (by simp)
    | cons a l =>
      rw [hl] at ht
      obtain ⟨v, hv, hmem, hle, hall⟩ := foldl_nextStep_some l a
      simp only [List.foldl_cons, show nextStep none a = some a from rfl] at ht
      have hvt : v = t := Option.some.inj (hv.symm.trans ht)
      subst hvt
      have hvin : v ∈ unusedTopics db := by
        rw [hl]
        rcases hmem with rfl | hm
        · exact List.mem_cons_self _ _
        · exact List.mem_cons_of_mem _ hm
      obtain ⟨hin, hst⟩ := (mem_unusedTopics db v).mp hvin
      refine ⟨hin, hst, ?_⟩
      intro u hu hsu
      have huin : u ∈ unusedTopics db := (mem_unusedTopics db u).mpr ⟨hu, hsu⟩
      rw [hl] at huin
      rcases List.mem_cons.mp huin with rfl | hm
      · exact hle
      · exact hall u hm

/-! ### Insertion lemmas for `add_topics` -/

lemma foldl_add_step_shift (cands : List Candidate) :
    ∀ p : DBState × Nat,
      (cands.foldl add_step p).1 = (cands.foldl add_step (p.1, 0)).1 ∧
      (cands.foldl add_step p).2 = p.2 + (cands.foldl add_step (p.1, 0)).2 := by
  induction cands with
  | nil => intro p; simp
  | cons c cands ih =>
    intro p
    by_cases h : tripleMem c p.1.topics
    · have h1 : add_step p c = p := by simp [add_step, h]
      have h2 : add_step (p.1, 0) c = (p.1, 0) := by simp [add_step, h]
      simp only [List.foldl_cons, h1, h2]
      exact ih p
    · have h1 : add_step p c = ({ p.1 with topics := p.1.topics ++ [candidate_row c p.1.next_id], next_id := p.1.next_id + 1 }, p.2 + 1) := by
        simp [add_step, h]
      have h2 : add_step (p.1, 0) c = ({ p.1 with topics := p.1.topics ++ [candidate_row c p.1.next_id], next_id := p.1.next_id + 1 }, 1) := by
        simp [add_step, h]
      simp only [List.foldl_cons, h1, h2]
      set D : DBState := { p.1 with topics := p.1.topics ++ [candidate_row c p.1.next_id], next_id := p.1.next_id + 1 } with hD
      obtain ⟨ha, hb⟩ := ih (D, p.2 + 1)
      obtain ⟨hc, hd⟩ := ih (D, 1)
      dsimp only at ha hb hc hd
      constructor
      · rw [ha, hc]
      · rw [hb, hd]; omega

/-- `add_topics` appends some rows, returns exactly their number, and
leaves the other two tables untouched. -/
lemma add_topics_master (cands : List Candidate) :
    ∀ db : DBState, ∃ new,
      (add_topics db cands).1.topics = db.topics ++ new ∧
      (add_topics db cands).2 = new.length ∧
      (add_topics db cands).1.uploads = db.uploads ∧
      (add_topics db cands).1.logs = db.logs := by
  induction cands with
  | nil => intro db; exact ⟨[], by simp [add_topics]⟩
  | cons c cands ih =>
    intro db
    by_cases h : tripleMem c db.topics
    · have h1 : add_step (db, 0) c = (db, 0) := by simp [add_step, h]
      have : add_topics db (c :: cands) = add_topics db cands := by
        simp only [add_topics, List.foldl_cons, h1]
      rw [this]; exact ih db
    · have h1 : add_step (db, 0) c = ({ db with topics := db.topics ++ [candidate_row c db.next_id], next_id := db.next_id + 1 }, 1) := by
        simp [add_step, h]
      set D : DBState := { db with topics := db.topics ++ [candidate_row c db.next_id], next_id := db.next_id + 1 } with hD
      have h2 : add_topics db (c :: cands) = cands.foldl add_step (D, 1) := by
        simp only [add_topics, List.foldl_cons, h1]
      obtain ⟨ha, hb⟩ := foldl_add_step_shift cands (D, 1)
      obtain ⟨new, hn1, hn2, hn3, hn4⟩ := ih D
      refine ⟨candidate_row c db.next_id :: new, ?_, ?_, ?_, ?_⟩
      · rw [h2, ha]
        show (add_topics D cands).1.topics = _
        rw [hn1, hD]
        simp
      · rw [h2, hb]
        show 1 + (add_topics D cands).2 = _
        rw [hn2]; simp [Nat.add_comm]
      · rw [h2, ha]
        show (add_topics D cands).1.uploads = _
        rw [hn3]
      · rw [h2, ha]
        show (add_topics D cands).1.logs = _
        rw [hn4]

lemma tripleMem_append_right (c : Candidate) (ts more : List Topic)
    (h : tripleMem c ts = true) : tripleMem c (ts ++ more) = true := by
  simp only [tripleMem, List.any_append, Bool.or_eq_true]
  exact Or.inl h

lemma tripleMem_candidate_row (c : Candidate) (ts : List Topic) (id : Nat) :
    tripleMem c (ts ++ [candidate_row c id]) = true := by
  simp [tripleMem, List.any_append, candidate_row]

/-- After `add_topics`, every submitted candidate's key triple is present. -/
lemma add_topics_all_present (cands : List Candidate) :
    ∀ db : DBState, ∀ c ∈ cands, tripleMem c (add_topics db cands).1.topics = true := by
  induction cands with
  | nil => intro db c hc; exact absurd hc (by simp)
  | cons c0 cands ih =>
    intro db c hc
    by_cases h : tripleMem c0 db.topics
    · have h1 : add_step (db, 0) c0 = (db, 0) := by simp [add_step, h]
      have he : add_topics db (c0 :: cands) = add_topics db cands := by
        simp only [add_topics, List.foldl_cons, h1]
      rcases List.mem_cons.mp hc with rfl | hm
      · rw [he]
        obtain ⟨new, hn1, -, -, -⟩ := add_topics_master cands db
        rw [hn1]
        exact tripleMem_append_right _ _ _ h
      · rw [he]; exact ih db c hm
    · have h1 : add_step (db, 0) c0 = ({ db with topics := db.topics ++ [candidate_row c0 db.next_id], next_id := db.next_id + 1 }, 1) := by
        simp [add_step, h]
      set D : DBState := { db with topics := db.topics ++ [candidate_row c0 db.next_id], next_id := db.next_id + 1 } with hD
      have h2 : add_topics db (c0 :: cands) = cands.foldl add_step (D, 1) := by
        simp only [add_topics, List.foldl_cons, h1]
      obtain ⟨ha, -⟩ := foldl_add_step_shift cands (D, 1)
      rcases List.mem_cons.mp hc with rfl | hm
      · rw [h2, ha]
        show tripleMem c (add_topics D cands).1.topics = true
        obtain ⟨new, hn1, -, -, -⟩ := add_topics_master cands D
        rw [hn1]
        refine tripleMem_append_right _ _ _ ?_
        rw [hD]
        exact tripleMem_candidate_row c db.topics db.next_id
      · rw [h2, ha]
        show tripleMem c (add_topics D cands).1.topics = true
        exact ih D c hm

/-- `add_topics` is a no-op returning 0 when every candidate's key triple
is already stored. -/
lemma add_topics_nop (cands : List Candidate) :
    ∀ db : DBState, (∀ c ∈ cands, tripleMem c db.topics = true) →
      add_topics db cands = (db, 0) := by
  induction cands with
  | nil => intro db _; rfl
  | cons c cands ih =>
    intro db hall
    have h : tripleMem c db.topics = true := hall c (List.mem_cons_self _ _)
    have h1 : add_step (db, 0) c = (db, 0) := by simp [add_step, h]
    have he : add_topics db (c :: cands) = add_topics db cands := by
      simp only [add_topics, List.foldl_cons, h1]
    rw [he]
    exact ih db fun c' hc' => hall c' (List.mem_cons_of_mem _ hc')

/-! ### Preservation of the key-uniqueness invariant -/

lemma tripleMem_eq_true_iff (c : Candidate) (ts : List Topic) :
    tripleMem c ts = true ↔
      ∃ t ∈ ts, keyOf t = (c.category, c.main_topic, c.subtopic) := by
  simp only [tripleMem, List.any_eq_true, Bool.and_eq_true, beq_iff_eq, keyOf,
    Prod.mk.injEq]
  tauto

lemma keyOf_candidate_row (c : Candidate) (id : Nat) :
    keyOf (candidate_row c id) = (c.category, c.main_topic, c.subtopic) := rfl

lemma TripleUnique_insert {ts : List Topic} {c : Candidate} (id : Nat)
    (hu : TripleUnique ts) (hm : tripleMem c ts = false) :
    TripleUnique (ts ++ [candidate_row c id]) := by
  rw [TripleUnique, List.pairwise_append]
  refine ⟨hu, by simp [TripleUnique], ?_⟩
  intro a ha b hb
  have hb' : b = candidate_row c id := by simpa using hb
  subst hb'
  rw [keyOf_candidate_row]
  intro hk
  have : tripleMem c ts = true := (tripleMem_eq_true_iff c ts).mpr ⟨a, ha, hk⟩
  rw [hm] at this
  exact absurd this (by simp)

lemma add_topics_unique (cands : List Candidate) :
    ∀ db : DBState, TripleUnique db.topics →
      TripleUnique (add_topics db cands).1.topics := by
  induction cands with
  | nil => intro db h; exact h
  | cons c cands ih =>
    intro db h
    by_cases hm : tripleMem c db.topics
    · have h1 : add_step (db, 0) c = (db, 0) := by simp [add_step, hm]
      have he : add_topics db (c :: cands) = add_topics db cands := by
        simp only [add_topics, List.foldl_cons, h1]
      rw [he]; exact ih db h
    · have hm' : tripleMem c db.topics = false := by
        simpa using hm
      have h1 : add_step (db, 0) c = ({ db with topics := db.topics ++ [candidate_row c db.next_id], next_id := db.next_id + 1 }, 1) := by
        simp [add_step, hm']
      set D : DBState := { db with topics := db.topics ++ [candidate_row c db.next_id], next_id := db.next_id + 1 } with hD
      have h2 : add_topics db (c :: cands) = cands.foldl add_step (D, 1) := by
        simp only [add_topics, List.foldl_cons, h1]
      obtain ⟨ha, -⟩ := foldl_add_step_shift cands (D, 1)
      rw [h2, ha]
      show TripleUnique (add_topics D cands).1.topics
      refine ih D ?_
      show TripleUnique (db.topics ++ [candidate_row c db.next_id])
      exact TripleUnique_insert db.next_id h hm'

lemma TripleUnique_map_keyOf_stable {ts : List Topic} (f : Topic → Topic)
    (hf : ∀ t, keyOf (f t) = keyOf t) (h : TripleUnique ts) :
    TripleUnique (ts.map f) := by
  refine List.Pairwise.map f ?_ h
  intro a b hab
  rw [hf a, hf b]
  exact hab

lemma applyOp_unique (db : DBState) (op : DBOp) (h : TripleUnique db.topics) :
    TripleUnique (applyOp db op).topics := by
  cases op with
  | addTopics cands => exact add_topics_unique cands db h
  | markUsed id now =>
    refine TripleUnique_map_keyOf_stable _ ?_ h
    intro t; unfold keyOf; split <;> rfl
  | resetAll =>
    refine TripleUnique_map_keyOf_stable _ ?_ h
    intro t; rfl
  | deleteAll => simp [applyOp, delete_all_topics, TripleUnique]
  | logUpload id title vid => exact h
  | addLog level msg => exact h

lemma applyOps_unique (ops : List DBOp) :
    ∀ db : DBState, TripleUnique db.topics → TripleUnique (applyOps db ops).topics := by
  induction ops with
  | nil => intro db h; exact h
  | cons op ops ih =>
    intro db h
    exact ih (applyOp db op) (applyOp_unique db op h)

/-! ### Retry-loop lemmas -/

lemma retry_go_congr (fuel : Nat) :
    ∀ (attempt : Nat) (u u' : Nat → Except Unit (Option String)),
      (∀ i, attempt ≤ i → i < attempt + fuel → u i = u' i) →
      retry_upload_go u attempt fuel = retry_upload_go u' attempt fuel := by
  induction fuel with
  | zero => intro attempt u u' _; rfl
  | succ fuel ih =>
    intro attempt u u' h
    have h0 : u attempt = u' attempt :=
      h attempt (le_refl _) (by omega)
    rw [retry_upload_go, retry_upload_go, ← h0]
    cases u attempt with
    | error e => exact ih (attempt + 1) u u' fun i h1 h2 => h i (by omega) (by omega)
    | ok o =>
      cases o with
      | none => exact ih (attempt + 1) u u' fun i h1 h2 => h i (by omega) (by omega)
      | some vid => rfl

lemma retry_go_allFail (fuel : Nat) :
    ∀ (attempt : Nat) (u : Nat → Except Unit (Option String)),
      (∀ i, attempt ≤ i → i < attempt + fuel → uploadFailed (u i) = true) →
      retry_upload_go u attempt fuel = none := by
  induction fuel with
  | zero => intro attempt u _; rfl
  | succ fuel ih =>
    intro attempt u h
    have h0 : uploadFailed (u attempt) = true :=
      h attempt (le_refl _) (by omega)
    rw [retry_upload_go]
    cases hu : u attempt with
    | error e => exact ih (attempt + 1) u fun i h1 h2 => h i (by omega) (by omega)
    | ok o =>
      cases o with
      | none => exact ih (attempt + 1) u fun i h1 h2 => h i (by omega) (by omega)
      | some vid => rw [hu] at h0; exact absurd h0 (by simp [uploadFailed])

lemma retry_go_firstSuccess (k : Nat) :
    ∀ (attempt fuel : Nat) (u : Nat → Except Unit (Option String)) (v : String),
      (∀ i, attempt ≤ i → i < attempt + k → uploadFailed (u i) = true) →
      u (attempt + k) = Except.ok (some v) → k < fuel →
      retry_upload_go u attempt fuel = some v := by
  induction k with
  | zero =>
    intro attempt fuel u v _ hok hlt
    obtain ⟨fuel', rfl⟩ : ∃ f, fuel = f + 1 := ⟨fuel - 1, by omega⟩
    rw [retry_upload_go]
    rw [show attempt + 0 = attempt from rfl] at hok
    rw [hok]
  | succ k ih =>
    intro attempt fuel u v hfail hok hlt
    obtain ⟨fuel', rfl⟩ : ∃ f, fuel = f + 1 := ⟨fuel - 1, by omega⟩
    have h0 : uploadFailed (u attempt) = true :=
      hfail attempt (le_refl _) (by omega)
    rw [retry_upload_go]
    cases hu : u attempt with
    | error e =>
      refine ih (attempt + 1) fuel' u v ?_ ?_ (by omega)
      · intro i h1 h2; exact hfail i (by omega) (by omega)
      · rw [show attempt + 1 + k = attempt + (k + 1) by omega]; exact hok
    | ok o =>
      cases o with
      | none =>
        refine ih (attempt + 1) fuel' u v ?_ ?_ (by omega)
        · intro i h1 h2; exact hfail i (by omega) (by omega)
        · rw [show attempt + 1 + k = attempt + (k + 1) by omega]; exact hok
      | some vid => rw [hu] at h0; exact absurd h0 (by simp [uploadFailed])

/-! ### Batch-loop lemmas for the topic supplier -/

lemma batchLoop_requests_le (oracle : TopicOracle) (total bs : Nat) (fuel : Nat) :
    ∀ (i : Nat) (acc : List Candidate),
      (batchLoop oracle total bs fuel i acc).2 ≤ fuel := by
  induction fuel with
  | zero => intro i acc; simp [batchLoop]
  | succ fuel ih =>
    intro i acc
    rw [batchLoop]
    dsimp only
    split
    · omega
    · have := ih (i + 1) (acc ++ generate_topics (oracle i (min bs (total - acc.length))))
      omega

lemma batchLoop_requests_pos (oracle : TopicOracle) (total bs : Nat) (fuel i : Nat)
    (acc : List Candidate) (h : 0 < fuel) :
    0 < (batchLoop oracle total bs fuel i acc).2 := by
  obtain ⟨fuel', rfl⟩ : ∃ f, fuel = f + 1 := ⟨fuel - 1, by omega⟩
  rw [batchLoop]
  dsimp only
  split
  · omega
  · omega

lemma mem_generate_topics {c : Candidate} {resp : Option (List RawTopic)}
    (h : c ∈ generate_topics resp) :
    ∃ raws r, resp = some raws ∧ r ∈ raws ∧ validateRaw r = some c := by
  cases resp with
  | none => exact absurd h (by simp [generate_topics])
  | some raws =>
    obtain ⟨r, hr, hv⟩ := List.mem_filterMap.mp h
    exact ⟨raws, r, rfl, hr, hv⟩

lemma batchLoop_provenance (oracle : TopicOracle) (total bs : Nat) (fuel : Nat) :
    ∀ (i : Nat) (acc : List Candidate) (c : Candidate),
      c ∈ (batchLoop oracle total bs fuel i acc).1 →
      c ∈ acc ∨ ∃ j cnt raws r, oracle j cnt = some raws ∧ r ∈ raws ∧
        validateRaw r = some c := by
  induction fuel with
  | zero => intro i acc c h; exact Or.inl h
  | succ fuel ih =>
    intro i acc c h
    rw [batchLoop] at h
    dsimp only at h
    have hsplit :
        c ∈ acc ++ generate_topics (oracle i (min bs (total - acc.length))) →
        c ∈ acc ∨ ∃ j cnt raws r, oracle j cnt = some raws ∧ r ∈ raws ∧
          validateRaw r = some c := by
      intro hm
      rcases List.mem_append.mp hm with hA | hB
      · exact Or.inl hA
      · obtain ⟨raws, r, hre, hr, hv⟩ := mem_generate_topics hB
        exact Or.inr ⟨i, min bs (total - acc.length), raws, r, hre, hr, hv⟩
    split at h
    · exact hsplit h
    · rcases ih (i + 1) (acc ++ generate_topics (oracle i (min bs (total - acc.length)))) c h with hA | hB
      · exact hsplit hA
      · exact Or.inr hB

lemma batchLoop_const_empty (oracle : TopicOracle) (total bs : Nat)
    (hemp : ∀ i c, generate_topics (oracle i c) = []) (fuel : Nat) :
    ∀ (i : Nat) (acc : List Candidate),
      (batchLoop oracle total bs fuel i acc).1 = acc := by
  induction fuel with
  | zero => intro i acc; rfl
  | succ fuel ih =>
    intro i acc
    rw [batchLoop]
    dsimp only
    rw [hemp i (min bs (total - acc.length)), List.append_nil]
    split
    · rfl
    · exact ih (i + 1) acc

/-! ### Orchestrator lemmas -/

lemma generate_and_store_uploads (env : Env) (db : DBState) :
    (generate_and_store_topics env db).2.1.uploads = db.uploads := by
  rw [generate_and_store_topics]
  dsimp only
  split
  · rfl
  · obtain ⟨new, -, -, hup, -⟩ :=
      add_topics_master (generate_topics_batch env.topicOracle 200 50).1 db
    simpa using hup

lemma ensure_uploads (env : Env) (db : DBState) :
    (ensure_topics_available env db).1.uploads = db.uploads := by
  rw [ensure_topics_available]
  dsimp only
  split
  · split
    · rfl
    · exact generate_and_store_uploads env db
  · split
    · exact generate_and_store_uploads env db
    · rfl

/-- Complete case split of the staged workflow after topic selection:
either some stage failed — the outcome is `false` and neither the topics
table nor the upload history changed — or the publish succeeded, the
topic was marked used and exactly one upload row was appended. -/
lemma workflow_after_selection_cases (env : Env) (db : DBState) (t : Topic) (now : Nat) :
    ((workflow_after_selection env db t now).1 = false ∧
     (workflow_after_selection env db t now).2.topics = db.topics ∧
     (workflow_after_selection env db t now).2.uploads = db.uploads) ∨
    ((workflow_after_selection env db t now).1 = true ∧
     ∃ vid, upload_video_with_retry env.upload 5 = some vid ∧
       (workflow_after_selection env db t now).2.topics =
         (mark_topic_used db t.id now).topics ∧
       (workflow_after_selection env db t now).2.uploads =
         db.uploads ++ [⟨t.id, (generate_video_metadata t).title, vid⟩]) := by
  cases hg : env.genLesson t with
  | error e => left; simp [workflow_after_selection, hg]
  | ok lesson =>
    cases hc : env.createVideo lesson t
        ("video_" ++ toString t.id ++ "_" ++ toString now ++ ".mp4") with
    | error e => left; simp [workflow_after_selection, hg, hc]
    | ok path =>
      cases hd : env.getDuration path with
      | error e => left; simp [workflow_after_selection, hg, hc, hd]
      | ok dur =>
        cases ha : env.authenticate with
        | error e => left; simp [workflow_after_selection, hg, hc, hd, ha]
        | ok b =>
          cases b with
          | false => left; simp [workflow_after_selection, hg, hc, hd, ha]
          | true =>
            cases hu : upload_video_with_retry env.upload 5 with
            | none => left; simp [workflow_after_selection, hg, hc, hd, ha, hu]
            | some vid =>
              right
              refine ⟨?_, vid, rfl, ?_, ?_⟩ <;>
                simp [workflow_after_selection, hg, hc, hd, ha, hu]

/-! ### Claim theorems -/

/-- C5: `add_topics` inserts only candidates whose
(category, main_topic, subtopic) triple is not already present, returns
the number actually inserted, and leaves existing rows unmodified; a
second call with the identical list inserts nothing and returns 0; and
after every sequence of store operations the key triple stays unique
across all stored rows. -/
theorem C5_add_topics_idempotent_unique (db : DBState) (cands : List Candidate) :
    (∃ new, (add_topics db cands).1.topics = db.topics ++ new ∧
      (add_topics db cands).2 = new.length) ∧
    (∀ c ∈ cands, tripleMem c (add_topics db cands).1.topics = true) ∧
    add_topics (add_topics db cands).1 cands = ((add_topics db cands).1, 0) ∧
    (TripleUnique db.topics →
      ∀ ops : List DBOp, TripleUnique ((applyOps (add_topics db cands).1 ops).topics)) := by
  obtain ⟨new, h1, h2, -, -⟩ := add_topics_master cands db
  refine ⟨⟨new, h1, h2⟩, add_topics_all_present cands db, ?_, ?_⟩
  · exact add_topics_nop cands _ (add_topics_all_present cands db)
  · intro hu ops
    exact applyOps_unique ops _ (add_topics_unique cands db hu)

/-- Witness for C5 at a concrete store and candidate list with an
internal duplicate. -/
theorem C5_add_topics_idempotent_unique_witness :
    (∀ c ∈ candsW, tripleMem c (add_topics dbEmpty candsW).1.topics = true) ∧
    add_topics (add_topics dbEmpty candsW).1 candsW = ((add_topics dbEmpty candsW).1, 0) :=
  ⟨(C5_add_topics_idempotent_unique dbEmpty candsW).2.1,
   (C5_add_topics_idempotent_unique dbEmpty candsW).2.2.1⟩

/-- C6: `get_next_topic` returns the unused row of lowest id, or nothing
when no unused row exists; with ids 1..5 all unused it returns id 1, then
id 2 once id 1 is marked used, and so on. -/
theorem C6_next_topic_lowest_id (db : DBState) :
    (get_next_topic db = none ↔ ∀ t ∈ db.topics, t.status ≠ TStatus.unused) ∧
    (∀ t, get_next_topic db = some t →
      t ∈ db.topics ∧ t.status = TStatus.unused ∧
      ∀ u ∈ db.topics, u.status = TStatus.unused → t.id ≤ u.id) ∧
    get_next_topic fiveDB = some (sampleTopic 1) ∧
    get_next_topic (mark_topic_used fiveDB 1 7) = some (sampleTopic 2) ∧
    get_next_topic (mark_topic_used (mark_topic_used fiveDB 1 7) 2 8) =
      some (sampleTopic 3) := by
  refine ⟨(get_next_topic_spec db).1, (get_next_topic_spec db).2, ?_, ?_, ?_⟩ <;> decide

/-- Witness for C6: the general minimality part applied to the concrete
five-topic store. -/
theorem C6_next_topic_lowest_id_witness :
    sampleTopic 1 ∈ fiveDB.topics ∧ (sampleTopic 1).status = TStatus.unused ∧
    ∀ u ∈ fiveDB.topics, u.status = TStatus.unused → (sampleTopic 1).id ≤ u.id :=
  (C6_next_topic_lowest_id fiveDB).2.1 (sampleTopic 1) (by decide)

/-- C7: when the backlog is exhausted but non-empty, the
ensure-availability step recycles it — afterwards every stored row is
unused with a cleared used timestamp, and the unused count equals the
unchanged total count. -/
theorem C7_recycling (env : Env) (db : DBState)
    (h0 : get_unused_count db = 0) (h1 : 0 < get_total_count db) :
    (∀ t ∈ (ensure_topics_available env db).1.topics,
      t.status = TStatus.unused ∧ t.used_at = none) ∧
    get_unused_count (ensure_topics_available env db).1 =
      get_total_count (ensure_topics_available env db).1 ∧
    get_total_count (ensure_topics_available env db).1 = get_total_count db := by
  have he : (ensure_topics_available env db).1 = reset_all_topics db := by
    rw [ensure_topics_available]
    dsimp only
    rw [h0]
    simp [h1]
  rw [he]
  refine ⟨?_, ?_, ?_⟩
  · intro t ht
    simp only [reset_all_topics, List.mem_map] at ht
    obtain ⟨t0, -, rfl⟩ := ht
    exact ⟨rfl, rfl⟩
  · have hall : ∀ t ∈ (reset_all_topics db).topics,
        (t.status == TStatus.unused) = true := by
      intro t ht
      simp only [reset_all_topics, List.mem_map] at ht
      obtain ⟨t0, -, rfl⟩ := ht
      rfl
    rw [get_unused_count, get_total_count, unusedTopics, List.filter_eq_self.mpr hall]
  · rw [get_total_count, get_total_count, reset_all_topics]
    exact List.length_map _ _

/-- Witness for C7: five used topics become five unused ones. -/
theorem C7_recycling_witness :
    get_unused_count (ensure_topics_available envNoTopics fiveUsedDB).1 = 5 := by
  have h := C7_recycling envNoTopics fiveUsedDB (by decide) (by decide)
  rw [h.2.1, h.2.2]
  decide

/-- C8: with low-water mark 10, the ensure-availability step invokes the
external topic supplier when the unused count is 3 (at least one
generation request is issued), and with unused count 12 it issues none
and leaves the store untouched. -/
theorem C8_low_water_mark (env : Env) (db : DBState) :
    (get_unused_count db = 3 → 0 < (ensure_topics_available env db).2) ∧
    (get_unused_count db = 12 → ensure_topics_available env db = (db, 0)) := by
  constructor
  · intro h3
    have hb : 0 < (generate_topics_batch env.topicOracle 200 50).2 := by
      rw [generate_topics_batch]
      dsimp only
      exact batchLoop_requests_pos env.topicOracle 200 50 _ 0 [] (by norm_num)
    have hg : (generate_and_store_topics env db).2.2 =
        (generate_topics_batch env.topicOracle 200 50).2 := by
      rw [generate_and_store_topics]
      dsimp only
      split <;> rfl
    rw [ensure_topics_available]
    dsimp only
    rw [h3]
    norm_num
    rw [hg]
    exact hb
  · intro h12
    rw [ensure_topics_available]
    dsimp only
    rw [h12]
    norm_num

/-- Witness for C8 at concrete stores with 3 and 12 unused topics. -/
theorem C8_low_water_mark_witness :
    0 < (ensure_topics_available envNoTopics threeUnusedDB).2 ∧
    ensure_topics_available envNoTopics twelveUnusedDB = (twelveUnusedDB, 0) :=
  ⟨(C8_low_water_mark envNoTopics threeUnusedDB).1 (by decide),
   (C8_low_water_mark envNoTopics twelveUnusedDB).2 (by decide)⟩

/-- C1: one orchestrator cycle always produces a boolean run outcome —
in the embedding every collaborator outcome, exceptions included, is
mapped by `create_and_upload_video` to a total `Bool × DBState` result —
and with an empty store and a supplier that always yields an empty topic
list the cycle terminates with a failure outcome (and an unchanged
store). -/
theorem C1_run_outcome_total (env : Env) (db : DBState) (now : Nat) :
    ((create_and_upload_video env db now).1 = true ∨
     (create_and_upload_video env db now).1 = false) ∧
    (get_total_count db = 0 →
      (∀ i c, generate_topics (env.topicOracle i c) = []) →
      (create_and_upload_video env db now).1 = false ∧
      (create_and_upload_video env db now).2 = db) := by
  constructor
  · cases h : (create_and_upload_video env db now).1
    · right; rfl
    · left; rfl
  · intro h0 hemp
    have htop : db.topics = [] := List.length_eq_zero.mp h0
    have hbatch : (generate_topics_batch env.topicOracle 200 50).1 = [] := by
      rw [generate_topics_batch]
      dsimp only
      rw [batchLoop_const_empty env.topicOracle 200 50 hemp _ 0 []]
      rfl
    have hgen : generate_and_store_topics env db =
        (false, db, (generate_topics_batch env.topicOracle 200 50).2) := by
      simp [generate_and_store_topics, hbatch]
    have hunused : get_unused_count db = 0 := by
      rw [get_unused_count, unusedTopics, htop]
      rfl
    have hens : (ensure_topics_available env db).1 = db := by
      rw [ensure_topics_available]
      dsimp only
      rw [hunused, h0]
      simp [hgen]
    have hsel : get_next_topic db = none := by
      rw [get_next_topic, unusedTopics, htop]
      rfl
    have hc : create_and_upload_video env db now = (false, db) := by
      rw [create_and_upload_video]
      rw [hens, hsel]
    rw [hc]
    exact ⟨rfl, rfl⟩

/-- Witness for C1: the empty store with an always-empty supplier fails
without an unhandled fault. -/
theorem C1_run_outcome_total_witness :
    (create_and_upload_video envNoTopics dbEmpty 0).1 = false :=
  ((C1_run_outcome_total envNoTopics dbEmpty 0).2 (by decide) (fun i c => rfl)).1

/-- C2: `upload_video_with_retry` with `max_retries = N ≥ 1` makes at
most `N` attempts (its result only depends on the first `N` outcomes of
the upload collaborator); if the collaborator fails on the first `N-1`
attempts and succeeds on the `N`-th it returns that video id; if it
fails on all `N` attempts it returns `none`; and a run whose earlier
stages succeed but whose five upload attempts all fail ends at the
publish stage with outcome `false`. -/
theorem C2_upload_retry_bound (N : Nat) (hN : 1 ≤ N)
    (u u' : Nat → Except Unit (Option String)) (v : String) :
    ((∀ i, i < N → u i = u' i) →
      upload_video_with_retry u N = upload_video_with_retry u' N) ∧
    ((∀ i, i < N - 1 → uploadFailed (u i) = true) →
      u (N - 1) = Except.ok (some v) →
      upload_video_with_retry u N = some v) ∧
    ((∀ i, i < N → uploadFailed (u i) = true) →
      upload_video_with_retry u N = none) ∧
    (∀ (env : Env) (db : DBState) (t : Topic) (now : Nat) lesson path d,
      env.genLesson t = Except.ok lesson →
      env.createVideo lesson t
        ("video_" ++ toString t.id ++ "_" ++ toString now ++ ".mp4") = Except.ok path →
      env.getDuration path = Except.ok d →
      env.authenticate = Except.ok true →
      (∀ i, i < 5 → uploadFailed (env.upload i) = true) →
      workflow_after_selection env db t now =
        (false, add_log db "ERROR" ("YouTube upload failed for topic " ++ toString t.id))) := by
  refine ⟨?_, ?_, ?_, ?_⟩
  · intro h
    exact retry_go_congr N 0 u u' fun i h1 h2 => h i (by omega)
  · intro hfail hok
    refine retry_go_firstSuccess (N - 1) 0 N u v ?_ ?_ (by omega)
    · intro i h1 h2
      exact hfail i (by omega)
    · rw [Nat.zero_add]
      exact hok
  · intro hfail
    exact retry_go_allFail N 0 u fun i h1 h2 => hfail i (by omega)
  · intro env db t now lesson path d hg hc hd ha hfail
    have hu : upload_video_with_retry env.upload 5 = none :=
      retry_go_allFail 5 0 env.upload fun i h1 h2 => hfail i (by omega)
    simp [workflow_after_selection, hg, hc, hd, ha, hu]

/-- Witness for C2: with two attempts allowed, a first-attempt exception
followed by a success yields the id, and two falsy attempts yield
nothing. -/
theorem C2_upload_retry_bound_witness :
    upload_video_with_retry uploadFailOnce 2 = some "vid123" ∧
    upload_video_with_retry uploadAlwaysFail 2 = none :=
  ⟨(C2_upload_retry_bound 2 (by decide) uploadFailOnce uploadFailOnce "vid123").2.1
      (by decide) rfl,
   (C2_upload_retry_bound 2 (by decide) uploadAlwaysFail uploadAlwaysFail "x").2.2.1
      (by decide)⟩

/-- C3: a run that fails leaves the upload history untouched and the
topics table exactly as the ensure-availability step left it — in
particular the selected topic is still stored with status `unused` — and
a run that succeeds marks exactly the selected topic used and appends
exactly one upload row, after the successful publish. -/
theorem C3_failure_preserves_store (env : Env) (db0 : DBState) (now : Nat) :
    ((create_and_upload_video env db0 now).1 = false →
      (create_and_upload_video env db0 now).2.uploads = db0.uploads ∧
      (create_and_upload_video env db0 now).2.topics =
        (ensure_topics_available env db0).1.topics ∧
      (∀ t, get_next_topic (ensure_topics_available env db0).1 = some t →
        t ∈ (create_and_upload_video env db0 now).2.topics ∧
        t.status = TStatus.unused)) ∧
    ((create_and_upload_video env db0 now).1 = true →
      ∃ t vid, get_next_topic (ensure_topics_available env db0).1 = some t ∧
        upload_video_with_retry env.upload 5 = some vid ∧
        (create_and_upload_video env db0 now).2.topics =
          (mark_topic_used (ensure_topics_available env db0).1 t.id now).topics ∧
        (create_and_upload_video env db0 now).2.uploads =
          db0.uploads ++ [⟨t.id, (generate_video_metadata t).title, vid⟩]) := by
  have hup : (ensure_topics_available env db0).1.uploads = db0.uploads :=
    ensure_uploads env db0
  cases hsel : get_next_topic (ensure_topics_available env db0).1 with
  | none =>
    have hc : create_and_upload_video env db0 now =
        (false, (ensure_topics_available env db0).1) := by
      rw [create_and_upload_video]
      rw [hsel]
    rw [hc]
    constructor
    · intro _
      refine ⟨hup, rfl, ?_⟩
      intro t ht
      exact absurd ht (by simp)
    · intro h
      exact absurd h (by simp)
  | some t =>
    have hc : create_and_upload_video env db0 now =
        workflow_after_selection env (ensure_topics_available env db0).1 t now := by
      rw [create_and_upload_video]
      rw [hsel]
    obtain ⟨hin, hst, -⟩ :=
      (get_next_topic_spec (ensure_topics_available env db0).1).2 t hsel
    rcases workflow_after_selection_cases env (ensure_topics_available env db0).1 t now with
      ⟨hf, htop, hupl⟩ | ⟨htr, vid, hu, htop, hupl⟩
    · rw [hc]
      constructor
      · intro _
        refine ⟨by rw [hupl, hup], htop, ?_⟩
        intro t' ht'
        have htt : t = t' := by injection ht'
        subst htt
        exact ⟨by rw [htop]; exact hin, hst⟩
      · intro habs
        rw [habs] at hf
        exact absurd hf (by simp)
    · rw [hc]
      constructor
      · intro habs
        rw [habs] at htr
        exact absurd htr (by simp)
      · intro _
        exact ⟨t, vid, rfl, hu, htop, by rw [hupl, hup]⟩

/-- Witness for C3: a run failing at the authentication stage leaves the
upload history and the topics table unchanged. -/
theorem C3_failure_preserves_store_witness :
    (create_and_upload_video envAuthFalse fiveDB 0).2.uploads = fiveDB.uploads ∧
    (create_and_upload_video envAuthFalse fiveDB 0).2.topics =
      (ensure_topics_available envAuthFalse fiveDB).1.topics :=
  ⟨((C3_failure_preserves_store envAuthFalse fiveDB 0).1 (by decide)).1,
   ((C3_failure_preserves_store envAuthFalse fiveDB 0).1 (by decide)).2.1⟩

/-- C4 counterexample: in run-once mode a failing run still yields process
exit code 0 — `main` discards the boolean returned by `run_once` and the
interpreter exits normally — refuting "non-zero when the single run
fails". -/
theorem C4_counterexample_exit_zero_on_failure :
    (run_once envNoTopics dbEmpty 0).1 = false ∧
    main_once_exit envNoTopics dbEmpty 0 = 0 :=
  ⟨by decide, rfl⟩

/-- C4 (amended): in run-once mode the process exit code is 0 regardless
of the run outcome; `run_once` does return the cycle's success boolean,
but `main` ignores it. -/
theorem C4_run_once_exit_code (env : Env) (db : DBState) (now : Nat) :
    main_once_exit env db now = 0 ∧
    run_once env db now = create_and_upload_video env db now :=
  ⟨rfl, rfl⟩

/-- C9: `generate_topics_batch` issues at most `ceil(total/bs)` requests,
returns at most `total` candidates, every returned candidate stems from a
response object carrying all three keys (validation discards the rest),
and it stops after the first request when that request already delivers
`total` validated candidates. -/
theorem C9_fill_batch (oracle : TopicOracle) (total bs : Nat) (hbs : 1 ≤ bs) :
    (generate_topics_batch oracle total bs).2 ≤ (total + bs - 1) / bs ∧
    (generate_topics_batch oracle total bs).1.length ≤ total ∧
    (∀ c ∈ (generate_topics_batch oracle total bs).1,
      ∃ j cnt raws r, oracle j cnt = some raws ∧ r ∈ raws ∧ validateRaw r = some c) ∧
    (∀ r : RawTopic, (validateRaw r).isSome = true ↔
      r.category.isSome = true ∧ r.main_topic.isSome = true ∧ r.subtopic.isSome = true) ∧
    (∀ fuel i acc,
      total ≤ (acc ++ generate_topics (oracle i (min bs (total - acc.length)))).length →
      (batchLoop oracle total bs (fuel + 1) i acc).2 = 1) ∧
    (1 ≤ total → total ≤ (generate_topics (oracle 0 (min bs total))).length →
      (generate_topics_batch oracle total bs).2 = 1) := by
  refine ⟨?_, ?_, ?_, ?_, ?_, ?_⟩
  · rw [generate_topics_batch]
    dsimp only
    exact batchLoop_requests_le oracle total bs _ 0 []
  · rw [generate_topics_batch]
    dsimp only
    rw [List.length_take]
    exact min_le_left _ _
  · intro c hc
    rw [generate_topics_batch] at hc
    dsimp only at hc
    have hc2 : c ∈ (batchLoop oracle total bs ((total + bs - 1) / bs) 0 []).1 :=
      List.mem_of_mem_take hc
    rcases batchLoop_provenance oracle total bs _ 0 [] c hc2 with h | h
    · exact absurd h (by simp)
    · exact h
  · intro r
    rcases r with ⟨c, m, s⟩
    cases c <;> cases m <;> cases s <;> simp [validateRaw]
  · intro fuel i acc h
    rw [batchLoop]
    dsimp only
    rw [if_pos h]
  · intro h1 h2
    have hb1 : 1 ≤ (total + bs - 1) / bs := by
      rw [Nat.one_le_div_iff (by omega)]
      omega
    obtain ⟨k, hk⟩ : ∃ k, (total + bs - 1) / bs = k + 1 :=
      ⟨(total + bs - 1) / bs - 1, by omega⟩
    rw [generate_topics_batch]
    dsimp only
    rw [hk, batchLoop]
    dsimp only
    rw [show (List.length ([] : List Candidate)) = 0 from rfl, Nat.sub_zero,
      List.nil_append]
    rw [if_pos h2]

/-- Witness for C9 at a backend that mixes complete and incomplete
candidate objects. -/
theorem C9_fill_batch_witness :
    (generate_topics_batch oracleW 3 2).2 ≤ (3 + 2 - 1) / 2 ∧
    (generate_topics_batch oracleW 3 2).1.length ≤ 3 :=
  ⟨(C9_fill_batch oracleW 3 2 (by decide)).1,
   (C9_fill_batch oracleW 3 2 (by decide)).2.1⟩

/-- C10: for every topic record carrying the three keys, `generate_lesson`
returns a lesson dictionary containing all of slide1..slide4 and
full_text, whatever the text-generation API does (success, unparseable
output, non-dict output, or a raised exception — the embedding's
`ApiOutcome` cases), and it is a total function, i.e. never raises. -/
theorem C10_lesson_always_complete (t : Candidate) (api : ApiOutcome) :
    (List.lookup "slide1" (generate_lesson t api)).isSome = true ∧
    (List.lookup "slide2" (generate_lesson t api)).isSome = true ∧
    (List.lookup "slide3" (generate_lesson t api)).isSome = true ∧
    (List.lookup "slide4" (generate_lesson t api)).isSome = true ∧
    (List.lookup "full_text" (generate_lesson t api)).isSome = true := by
  cases hf : fallback_content t.category t.main_topic t.subtopic with
  | some c =>
    unfold generate_lesson
    rw [hf]
    exact ⟨rfl, rfl, rfl, rfl, rfl⟩
  | none =>
    unfold generate_lesson
    rw [hf]
    cases api with
    | raised => exact ⟨rfl, rfl, rfl, rfl, rfl⟩
    | parseFail => exact ⟨rfl, rfl, rfl, rfl, rfl⟩
    | notDict => exact ⟨rfl, rfl, rfl, rfl, rfl⟩
    | parsed s1 s2 s3 s4 => exact ⟨rfl, rfl, rfl, rfl, rfl⟩

end PostKoko
